import Mathlib

/-!
Shallow embedding of `src/tools/tools.js` (lst-operations): the normalizer
functions, the Approved reconciler `runApproved`, and the Remittance
reconciler `runRemit`, together with theorems settling the frozen claims.

Cell values are modelled by `Value`; JS string builtins (`trim`, `split`,
`endsWith`, `slice(0,-2)`, `replaceAll`, `Number(...)`) are modelled as
executable functions over `String`/`List Char`.
-/

namespace LstOps

/-- A spreadsheet cell value: `vNull` models a missing key (JS `undefined`;
`null` never occurs since the table reader defaults missing cells to `""`),
`vStr` a string cell, `vNum` an integer-valued numeric cell. -/
inductive Value where
  | vNull
  | vStr (s : String)
  | vNum (n : Int)
deriving DecidableEq

/-- A row: an ordered mapping from column name to cell value
(JS object produced by `sheet_to_json`; keys are unique). -/
abbrev Row := List (String × Value)

/-- JS `String(x)` on the modelled values. -/
def jsString : Value → String
  | .vNull => "undefined"
  | .vStr s => s
  | .vNum n => toString n

/-- The whitespace class of JS `String.prototype.trim`
(space, tab, LF, CR, VT, FF, NBSP, BOM). -/
def isJsWhitespace (c : Char) : Bool :=
  c = ' ' || c = '\t' || c = '\n' || c = '\r' ||
  c = Char.ofNat 11 || c = Char.ofNat 12 || c = Char.ofNat 160 || c = Char.ofNat 65279

/-- Drop trailing whitespace from a character list. -/
def dropTrailingWs (l : List Char) : List Char :=
  (l.reverse.dropWhile isJsWhitespace).reverse

/-- JS `s.trim()` on the character list of a string. -/
def jsTrimData (l : List Char) : List Char :=
  dropTrailingWs (l.dropWhile isJsWhitespace)

/-- JS `s.trim()`. -/
def jsTrim (s : String) : String :=
  ⟨jsTrimData s.data⟩

/-- JS `s.endsWith(t)`. -/
def jsEndsWith (s t : String) : Bool :=
  t.data.isSuffixOf s.data

/-- JS `s.slice(0, -n)` for `n ≤ s.length`: drop the last `n` characters. -/
def jsDropRight (s : String) (n : Nat) : String :=
  ⟨s.data.take (s.data.length - n)⟩

/-- The `if (s.endsWith(".0")) s = s.slice(0, -2)` step of the normalizers. -/
def stripDotZero (s : String) : String :=
  if jsEndsWith s ".0" then jsDropRight s 2 else s

/-- JS `s.replaceAll(c, "")` for a one-character pattern `c`:
remove every occurrence of that character. -/
def jsRemoveAll (c : Char) (s : String) : String :=
  ⟨s.data.filter (fun a => a != c)⟩

/-- Source function `normalizeTicket` (tools.js:5-10): null/undefined to `""`; otherwise
stringify, trim, strip a trailing `".0"`, then remove all commas and all
spaces (in that order). -/
def normalizeTicket (x : Value) : String :=
  match x with
  | .vNull => ""
  | v =>
    let s := jsTrim (jsString v)
    let s2 := stripDotZero s
    jsRemoveAll ' ' (jsRemoveAll ',' s2)

/-- Source function `normalizeInvoice` (tools.js:19-24): textually identical to
`normalizeTicket` in the source. -/
def normalizeInvoice (x : Value) : String :=
  match x with
  | .vNull => ""
  | v =>
    let s := jsTrim (jsString v)
    let s2 := stripDotZero s
    jsRemoveAll ' ' (jsRemoveAll ',' s2)

/-- JS `s.split(",")` on character lists: `""` splits to `[""]`,
separators at the ends produce empty fields. -/
def splitCommaAux : List Char → List (List Char)
  | [] => [[]]
  | a :: as =>
    let r := splitCommaAux as
    if a = ',' then [] :: r
    else
      match r with
      | [] => [[a]]
      | t :: ts => (a :: t) :: ts

/-- JS `s.split(",")`. -/
def jsSplitComma (s : String) : List String :=
  (splitCommaAux s.data).map (fun l => ⟨l⟩)

/-- Source function `splitAxonTickets` (tools.js:12-17): null/undefined or blank cell to `[]`;
otherwise split on `,`, trim each token, drop empty tokens
(`filter(Boolean)`), preserving order. -/
def splitAxonTickets (cell : Value) : List String :=
  match cell with
  | .vNull => []
  | v =>
    let s := jsTrim (jsString v)
    if s = "" then []
    else ((jsSplitComma s).map jsTrim).filter (fun t => t ≠ "")

/-- Cell access `r[c]`: a missing key reads as JS `undefined`. -/
def getCell (r : Row) (c : String) : Value :=
  (r.lookup c).getD .vNull

/-- JS `c in r`: key presence in a row. -/
def hasKey (r : Row) (c : String) : Bool :=
  (r.lookup c).isSome

/-- Numeric value of a digit list, most significant first. -/
def digitsVal (l : List Char) : Nat :=
  l.foldl (fun a c => 10 * a + (c.toNat - 48)) 0

/-- Parse an unsigned JS decimal literal: digits, `digits.digits`,
`digits.`, or `.digits`. -/
def parseUnsigned (l : List Char) : Option Rat :=
  let ip := l.takeWhile (fun c => c.isDigit)
  let rest := l.dropWhile (fun c => c.isDigit)
  match rest with
  | [] => if ip.isEmpty then none else some ((digitsVal ip : Nat) : Rat)
  | c :: fp =>
    if c = '.' then
      if fp.all (fun d => d.isDigit) && !(ip.isEmpty && fp.isEmpty) then
        some (((digitsVal ip : Nat) : Rat) + ((digitsVal fp : Nat) : Rat) / ((10 : Rat) ^ fp.length))
      else none
    else none

/-- Models JS `Number(s)` on the decimal fragment of the numeric-string
grammar: whitespace is trimmed, the empty string converts to `0`, an
optional sign precedes integer/fraction digits; `none` models `NaN`.
(Exponent, hex/octal/binary and `Infinity` forms are outside the inputs
this program feeds to `Number`.) -/
def jsNumber (s : String) : Option Rat :=
  match jsTrimData s.data with
  | [] => some 0
  | '+' :: r => parseUnsigned r
  | '-' :: r => (parseUnsigned r).map (fun q => -q)
  | l => parseUnsigned l

/- ---------- Approved reconciler (tools.js:59-109) ---------- -/

/-- An `Invoice Status` output row (tools.js:86-93). -/
structure OutRow where
  invoiceNo : Value
  tickets : Value
  date : Value
  name : Value
  balanceDue : Value
  status : String
deriving DecidableEq

/-- The result of a successful `runApproved`: the `Summary` sheet and the
`Invoice Status` sheet handed to `downloadWorkbook`. An `Except.error`
models a thrown error, in which case no workbook download happens. -/
structure ApprovedResult where
  summary : List (String × Nat)
  invoiceStatus : List OutRow
deriving DecidableEq

/-- The required AXON columns, in the order the validation loop checks them
(tools.js:64). -/
def requiredAxon : List String :=
  ["Invoice#", "Tickets", "Date", "Name", "Balance Due"]

/-- The first required column the validation loop throws on: the loop body is
`if (!rows.length || !(c in rows[0])) throw ...`, so it inspects only the
first row's keys. -/
def firstMissingCol (rows : List Row) (req : List String) : Option String :=
  req.find? (fun c => rows.isEmpty || !(hasKey (rows.headD []) c))

/-- The Open-Invoice Ticket Set (tools.js:70-74). JS `Set` is modelled by the
list of inserted elements; `Set.has` is list membership, which ignores
duplicates exactly as the set does. -/
def buildOiSet (oiRows : List Row) : List String :=
  (oiRows.map (fun r => normalizeTicket (getCell r "Ticket"))).filter (fun t => t ≠ "")

/-- The per-row normalized ticket list (tools.js:77-78):
`splitAxonTickets(r["Tickets"]).map(normalizeTicket).filter(Boolean)`. -/
def normTokens (r : Row) : List String :=
  ((splitAxonTickets (getCell r "Tickets")).map (fun t => normalizeTicket (.vStr t))).filter
    (fun t => t ≠ "")

/-- The status computation of tools.js:79-84. -/
def statusOfRow (oiSet : List String) (r : Row) : String :=
  let normalized := normTokens r
  let total := normalized.length
  let matched := (normalized.filter (fun t => oiSet.contains t)).length
  if 0 < total ∧ matched = total then "Ready to Flip"
  else if 0 < total ∧ 0 < matched then "Pending"
  else "Not Ready"

/-- One `Invoice Status` row (tools.js:86-93): the five original cells carried
through unchanged, plus the computed status. -/
def approvedOutRow (oiSet : List String) (r : Row) : OutRow :=
  ⟨getCell r "Invoice#", getCell r "Tickets", getCell r "Date", getCell r "Name",
    getCell r "Balance Due", statusOfRow oiSet r⟩

/-- The `out` local of `runApproved` (tools.js:76-94). -/
def approvedOut (axonRows oiRows : List Row) : List OutRow :=
  axonRows.map (approvedOutRow (buildOiSet oiRows))

/-- The `summary` local of `runApproved` (tools.js:96-101). -/
def approvedSummary (axonRows oiRows : List Row) : List (String × Nat) :=
  [("Invoices (AXON rows)", (approvedOut axonRows oiRows).length),
   ("Ready to Flip",
     ((approvedOut axonRows oiRows).filter (fun r => r.status = "Ready to Flip")).length),
   ("Pending", ((approvedOut axonRows oiRows).filter (fun r => r.status = "Pending")).length),
   ("Not Ready", ((approvedOut axonRows oiRows).filter (fun r => r.status = "Not Ready")).length)]

/-- Source function `runApproved` (tools.js:59-109), with file reading abstracted to the two
row lists it produces and the workbook download abstracted to the returned
`ApprovedResult`. -/
def runApproved (axonRows oiRows : List Row) : Except String ApprovedResult :=
  match firstMissingCol axonRows requiredAxon with
  | some c => .error ("AXON missing column: " ++ c)
  | none =>
    if oiRows.isEmpty || !(hasKey (oiRows.headD []) "Ticket") then
      .error "OpenInvoice missing column: Ticket"
    else
      .ok ⟨approvedSummary axonRows oiRows, approvedOut axonRows oiRows⟩

/- ---------- Remittance reconciler (tools.js:112-178) ---------- -/

/-- A `Customer Breakdown` output row (tools.js:153-159, 162-168). The
`Net Amount`, `PioneerNaturalResources` and `XTO` cells hold either a number
or the empty string; `none` models the empty-string cell. -/
structure RemitRow where
  reference : String
  netAmount : Option Rat
  customer : String
  pioneer : Option Rat
  xto : Option Rat
deriving DecidableEq

/-- The result of a successful `runRemit`: the `Customer Breakdown` and
`Not Found in AXON` sheets handed to `downloadWorkbook`. -/
structure RemitResult where
  breakdown : List RemitRow
  notFound : List RemitRow
deriving DecidableEq

/-- The required AXON columns of `runRemit` (tools.js:117). -/
def requiredAxonRemit : List String := ["Invoice#", "Name"]

def PIONEER : String := "Pioneer Natural Resources"

def XTO : String := "XTO Energy"

/-- The Invoice-to-Customer map entries (tools.js:128-132), in insertion
order: normalized `Invoice#` paired with `String(r["Name"]).trim()`, keeping
only truthy (nonempty) keys. -/
def buildInvMap (axonRows : List Row) : List (String × String) :=
  (axonRows.map
      (fun r => (normalizeInvoice (getCell r "Invoice#"), jsTrim (jsString (getCell r "Name"))))).filter
    (fun p => p.1 ≠ "")

/-- JS `Map` built from a pair list: `get` returns the value of the last pair
with the given key (later entries overwrite earlier ones). -/
def jsMapGet (pairs : List (String × String)) (k : String) : Option String :=
  (pairs.reverse.find? (fun p => p.1 = k)).map Prod.snd

/-- The `Net Amount` parse of tools.js:144:
`Number(String(cell).replaceAll(",", "")) || 0` — a non-numeric result
(`NaN`, modelled `none`) yields `0`; `|| 0` maps `0` to `0` as well. -/
def parseNetAmount (v : Value) : Rat :=
  match jsNumber (jsRemoveAll ',' (jsString v)) with
  | some q => q
  | none => 0

/-- One data row of the remittance loop body (tools.js:142-159). The
customer lookup models `invToCustomer.get(inv) || "NOT FOUND IN AXON"`:
the fallback also fires when the map holds an empty name, since `""` is
falsy. -/
def remitDataRow (invMap : List (String × String)) (r : Row) : RemitRow :=
  let refRaw := match r.lookup "Reference" with
    | some v => v
    | none => getCell r "Reference/Text"
  let inv := normalizeInvoice refRaw
  let amt := parseNetAmount (getCell r "Net Amount")
  let customer := match jsMapGet invMap inv with
    | some n => if n = "" then "NOT FOUND IN AXON" else n
    | none => "NOT FOUND IN AXON"
  let pioneer := if customer = PIONEER then some amt else none
  let xto := if customer = XTO then some amt else none
  ⟨inv, some amt, customer, pioneer, xto⟩

/-- One iteration of the remittance loop (tools.js:141-160): push the row and
conditionally add the amount to the two running totals. -/
def remitStep (invMap : List (String × String)) (acc : List RemitRow × Rat × Rat) (r : Row) :
    List RemitRow × Rat × Rat :=
  let row := remitDataRow invMap r
  (acc.1 ++ [row],
   if row.customer = PIONEER then acc.2.1 + row.netAmount.getD 0 else acc.2.1,
   if row.customer = XTO then acc.2.2 + row.netAmount.getD 0 else acc.2.2)

/-- The remittance loop: output rows in order plus the two running totals. -/
def remitLoop (invMap : List (String × String)) (rows : List Row) :
    List RemitRow × Rat × Rat :=
  rows.foldl (remitStep invMap) ([], 0, 0)

/-- The `out` list of `runRemit` after the loop and the final push
(tools.js:137-168): the data rows followed by the `TOTAL` row carrying the
two running totals. -/
def remitOutRows (axonRows remRows : List Row) : List RemitRow :=
  let res := remitLoop (buildInvMap axonRows) remRows
  res.1 ++ [⟨"", none, "TOTAL", some res.2.1, some res.2.2⟩]

/-- The `notFound` local of `runRemit` (tools.js:170). -/
def remitNotFound (axonRows remRows : List Row) : List RemitRow :=
  (remitOutRows axonRows remRows).filter (fun r => r.customer = "NOT FOUND IN AXON")

/-- Source function `runRemit` (tools.js:112-178), with file reading abstracted to the two
row lists and the workbook download abstracted to the returned
`RemitResult`. -/
def runRemit (axonRows remRows : List Row) : Except String RemitResult :=
  match firstMissingCol axonRows requiredAxonRemit with
  | some c => .error ("AXON missing column: " ++ c)
  | none =>
    let hasReference :=
      !remRows.isEmpty &&
        (hasKey (remRows.headD []) "Reference" || hasKey (remRows.headD []) "Reference/Text")
    if !hasReference then .error "Remittance missing column: Reference (or Reference/Text)"
    else if remRows.isEmpty || !(hasKey (remRows.headD []) "Net Amount") then
      .error "Remittance missing column: Net Amount"
    else
      .ok ⟨remitOutRows axonRows remRows, remitNotFound axonRows remRows⟩

/- ---------- Spec-side definitions (transcribed from the claims' wording,
to be compared with the source-side definitions above) ---------- -/

/-- Transcribes the spec's normalizer contract (§4.1): null/undefined to the
empty string; otherwise convert to string, trim whitespace, drop a trailing
`".0"`, then remove all comma and space characters, in that order. -/
def normalizeContractSpec (x : Value) : String :=
  match x with
  | .vNull => ""
  | v => jsRemoveAll ' ' (jsRemoveAll ',' (stripDotZero (jsTrim (jsString v))))

/-- Transcribes the claimed status decision: `Ready to Flip` if
`total > 0` and `matched == total`, else `Pending` if `total > 0` and
`matched > 0`, else `Not Ready`. -/
def specStatus (total matched : Nat) : String :=
  if 0 < total ∧ matched = total then "Ready to Flip"
  else if 0 < total ∧ 0 < matched then "Pending"
  else "Not Ready"

/-- The claim's `total`: the number of nonempty normalized ticket tokens of
a row's `Tickets` cell. -/
def totalOf (r : Row) : Nat :=
  (normTokens r).length

/-- The claim's `matched`: how many of the row's nonempty normalized tokens
are present in the Open-Invoice Ticket Set. -/
def matchedOf (oiRows : List Row) (r : Row) : Nat :=
  ((normTokens r).filter (fun t => (buildOiSet oiRows).contains t)).length

/-- A Summary-sheet value read off by its `Metric` name. -/
def summaryVal (res : ApprovedResult) (m : String) : Nat :=
  (((res.summary.find? (fun p => p.1 = m))).map Prod.snd).getD 0

/-- Transcribes the claimed Invoice-to-Customer mapping: each nonempty
normalized `Invoice#` maps to the trimmed `Name` string of the last AXON
row with that normalized `Invoice#`; empty normalized ids are skipped. -/
def lastCustomerFor (axon : List Row) (k : String) : Option String :=
  if k = "" then none
  else
    (axon.reverse.find? (fun r => normalizeInvoice (getCell r "Invoice#") = k)).map
      (fun r => jsTrim (jsString (getCell r "Name")))

/-- The normalized reference of a remittance row, read from `Reference` when
that key is present and from `Reference/Text` otherwise. -/
def refNorm (r : Row) : String :=
  normalizeInvoice
    (match r.lookup "Reference" with
     | some v => v
     | none => getCell r "Reference/Text")

/-- The amended customer rule: the mapped name when the reference is in the
map with a nonempty name, the literal `NOT FOUND IN AXON` when the reference
is absent or maps to an empty name. -/
def customerSpec (axon : List Row) (r : Row) : String :=
  match lastCustomerFor axon (refNorm r) with
  | some n => if n = "" then "NOT FOUND IN AXON" else n
  | none => "NOT FOUND IN AXON"

/- ---------- Helper lemmas ---------- -/

lemma normalizeTicket_eq_normalizeInvoice (x : Value) :
    normalizeTicket x = normalizeInvoice x := by
  cases x <;> rfl

lemma filter_pair_stable (p q : Char → Bool) (l : List Char) :
    List.filter q (List.filter p (List.filter q (List.filter p l))) =
      List.filter q (List.filter p l) := by
  simp only [List.filter_filter]
  refine List.filter_congr ?_
  intro x _
  cases hp : p x <;> cases hq : q x <;> simp [hp, hq]

lemma jsRemoveAll_stable (s : String) :
    jsRemoveAll ' ' (jsRemoveAll ',' (jsRemoveAll ' ' (jsRemoveAll ',' s))) =
      jsRemoveAll ' ' (jsRemoveAll ',' s) := by
  unfold jsRemoveAll
  exact congrArg String.mk (filter_pair_stable _ _ s.data)

lemma dropWhile_ws_append_dotzero (u : List Char) :
    List.dropWhile isJsWhitespace (u ++ ['.', '0']) =
      List.dropWhile isJsWhitespace u ++ ['.', '0'] := by
  induction u with
  | nil => decide
  | cons c u ih =>
    by_cases h : isJsWhitespace c <;>
      simp [List.dropWhile_cons, h, ih]

lemma dropTrailingWs_dotzero (w : List Char) :
    dropTrailingWs (w ++ ['.', '0']) = w ++ ['.', '0'] := by
  unfold dropTrailingWs
  rw [List.reverse_append]
  have h0 : isJsWhitespace '0' = false := by decide
  simp [List.dropWhile_cons, h0]

lemma jsTrimData_dotzero (u : List Char) :
    jsTrimData (u ++ ['.', '0']) = List.dropWhile isJsWhitespace u ++ ['.', '0'] := by
  unfold jsTrimData
  rw [dropWhile_ws_append_dotzero, dropTrailingWs_dotzero]

/- ---------- C7: the common normalizer contract ---------- -/

/-- C7: `normalizeTicket` and `normalizeInvoice` are total functions with the
same contract: null/undefined yield `""`; any other value is stringified,
trimmed, stripped of a trailing `".0"`, then has all commas and spaces
removed, in that order. -/
theorem normalize_contract (x : Value) :
    normalizeTicket x = normalizeContractSpec x ∧
    normalizeInvoice x = normalizeContractSpec x ∧
    normalizeTicket .vNull = "" ∧ normalizeInvoice .vNull = "" := by
  refine ⟨?_, ?_, rfl, rfl⟩ <;> cases x <;> rfl

/- ---------- C5: idempotence ---------- -/

/-- C5 counterexample: normalization is not idempotent on `"1.0.0"`, whose
first normalization `"1.0"` still ends in `".0"` and is stripped again by a
second pass. -/
theorem normalize_idempotent_cex :
    normalizeTicket (.vStr "1.0.0") = "1.0" ∧
    normalizeTicket (.vStr (normalizeTicket (.vStr "1.0.0"))) = "1" ∧
    normalizeTicket (.vStr (normalizeTicket (.vStr "1.0.0"))) ≠
      normalizeTicket (.vStr "1.0.0") := by
  decide

/-- C5 amended: `normalizeTicket` (and likewise `normalizeInvoice`) is
idempotent on every input whose normalized form carries no leading/trailing
whitespace and does not end in `".0"`. -/
theorem normalize_idempotent_on_stable (x : Value)
    (h1 : jsTrim (normalizeTicket x) = normalizeTicket x)
    (h2 : jsEndsWith (normalizeTicket x) ".0" = false) :
    normalizeTicket (.vStr (normalizeTicket x)) = normalizeTicket x ∧
    normalizeInvoice (.vStr (normalizeInvoice x)) = normalizeInvoice x := by
  have key : normalizeTicket (.vStr (normalizeTicket x)) = normalizeTicket x := by
    have e1 : normalizeTicket (.vStr (normalizeTicket x)) =
        jsRemoveAll ' ' (jsRemoveAll ',' (stripDotZero (jsTrim (normalizeTicket x)))) := rfl
    have e2 : stripDotZero (normalizeTicket x) = normalizeTicket x := by
      unfold stripDotZero
      rw [h2]
      simp
    rw [e1, h1, e2]
    cases x with
    | vNull => rfl
    | vStr t => exact jsRemoveAll_stable _
    | vNum n => exact jsRemoveAll_stable _
  refine ⟨key, ?_⟩
  have e := normalizeTicket_eq_normalizeInvoice
  rw [← e x, ← e (.vStr (normalizeTicket x))]
  exact key

/-- C5 witness: the amended idempotence at the concrete input `"A1"`. -/
theorem normalize_idempotent_witness :
    normalizeTicket (.vStr (normalizeTicket (.vStr "A1"))) = normalizeTicket (.vStr "A1") ∧
    normalizeInvoice (.vStr (normalizeInvoice (.vStr "A1"))) = normalizeInvoice (.vStr "A1") :=
  normalize_idempotent_on_stable (.vStr "A1") (by decide) (by decide)

/- ---------- C6: stripping the `.0` suffix ---------- -/

/-- C6 counterexample: on `"1,234.0"` (string form ending in `".0"`)
normalization does not leave the rest unchanged: the comma is removed too. -/
theorem normalize_dotzero_cex :
    jsEndsWith "1,234.0" ".0" = true ∧
    normalizeTicket (.vStr "1,234.0") = "1234" ∧
    normalizeTicket (.vStr "1,234.0") ≠ "1,234" := by
  decide

/-- C6 amended: for every value whose string form ends in `".0"`,
normalization drops exactly those two characters from the trimmed string —
which still ends in `".0"` — and then removes commas and spaces from the
rest (so the rest is unchanged only when already free of commas, spaces and
leading whitespace). -/
theorem normalize_strips_dotzero (s : String) (h : jsEndsWith s ".0" = true) :
    normalizeTicket (.vStr s) =
      jsRemoveAll ' ' (jsRemoveAll ',' (jsDropRight (jsTrim s) 2)) ∧
    jsTrim s = jsDropRight (jsTrim s) 2 ++ ".0" := by
  obtain ⟨u, hu⟩ : ['.', '0'] <:+ s.data := by
    rw [← List.isSuffixOf_iff_suffix]
    exact h
  have htrim : (jsTrim s).data = List.dropWhile isJsWhitespace u ++ ['.', '0'] := by
    show jsTrimData s.data = _
    rw [← hu, jsTrimData_dotzero]
  have hdrop : jsDropRight (jsTrim s) 2 = ⟨List.dropWhile isJsWhitespace u⟩ := by
    apply String.ext
    show ((jsTrim s).data).take ((jsTrim s).data.length - 2) = _
    rw [htrim, List.length_append]
    simp only [List.length_cons, List.length_nil, Nat.add_sub_cancel]
    exact List.take_left _ _
  have hends : jsEndsWith (jsTrim s) ".0" = true := by
    show (['.', '0'] : List Char).isSuffixOf (jsTrim s).data = true
    rw [List.isSuffixOf_iff_suffix, htrim]
    exact ⟨_, rfl⟩
  have hstrip : stripDotZero (jsTrim s) = jsDropRight (jsTrim s) 2 := by
    unfold stripDotZero
    rw [hends]
    simp
  constructor
  · show jsRemoveAll ' ' (jsRemoveAll ',' (stripDotZero (jsTrim s))) = _
    rw [hstrip]
  · apply String.ext
    rw [htrim, hdrop]
    rfl

/-- C6 witness: the amended statement at the concrete input `"1234.0"`. -/
theorem normalize_strips_dotzero_witness :
    normalizeTicket (.vStr "1234.0") =
      jsRemoveAll ' ' (jsRemoveAll ',' (jsDropRight (jsTrim "1234.0") 2)) ∧
    jsTrim "1234.0" = jsDropRight (jsTrim "1234.0") 2 ++ ".0" :=
  normalize_strips_dotzero "1234.0" (by decide)

/- ---------- The Approved reconciler: extraction and counting lemmas ---------- -/

lemma runApproved_ok_res (axon oi : List Row) (res : ApprovedResult)
    (h : runApproved axon oi = .ok res) :
    res = ⟨approvedSummary axon oi, approvedOut axon oi⟩ := by
  unfold runApproved at h
  split at h
  · exact Except.noConfusion h
  · split at h
    · exact Except.noConfusion h
    · cases h
      rfl

lemma statusOfRow_mem (oiSet : List String) (r : Row) :
    statusOfRow oiSet r = "Ready to Flip" ∨ statusOfRow oiSet r = "Pending" ∨
      statusOfRow oiSet r = "Not Ready" := by
  unfold statusOfRow
  dsimp only
  split
  · exact Or.inl rfl
  · split
    · exact Or.inr (Or.inl rfl)
    · exact Or.inr (Or.inr rfl)

lemma filter3_len (s1 s2 s3 : String) (h12 : s1 ≠ s2) (h13 : s1 ≠ s3) (h23 : s2 ≠ s3)
    (l : List OutRow) (h : ∀ x ∈ l, x.status = s1 ∨ x.status = s2 ∨ x.status = s3) :
    (l.filter (fun x => x.status = s1)).length + (l.filter (fun x => x.status = s2)).length +
      (l.filter (fun x => x.status = s3)).length = l.length := by
  induction l with
  | nil => rfl
  | cons a l ih =>
    have ha := h a (List.mem_cons_self a l)
    have ih2 := ih (fun x hx => h x (List.mem_cons_of_mem a hx))
    rcases ha with ha | ha | ha <;>
      simp [List.filter_cons, ha, h12, h13, h23, Ne.symm h12, Ne.symm h13, Ne.symm h23] <;>
      omega

/- ---------- C1: per-row status ---------- -/

/-- C1: for every AXON row, the output `Status` follows the claimed decision:
with `total` the number of nonempty normalized ticket tokens and `matched`
the number of those in the Open-Invoice Ticket Set, it is `Ready to Flip`
when `total > 0` and `matched == total`, else `Pending` when `total > 0` and
`matched > 0`, else `Not Ready`. -/
theorem runApproved_status_spec (axon oi : List Row) (res : ApprovedResult)
    (h : runApproved axon oi = .ok res) :
    res.invoiceStatus.map OutRow.status =
      axon.map (fun r => specStatus (totalOf r) (matchedOf oi r)) := by
  have hres := runApproved_ok_res axon oi res h
  subst hres
  show (approvedOut axon oi).map OutRow.status = _
  unfold approvedOut
  rw [List.map_map]
  rfl

/- ---------- C2: summary counts add up ---------- -/

/-- C2: on every validated input the Summary sheet lists the four metrics in
order and the `Ready to Flip`, `Pending` and `Not Ready` counts sum to the
total AXON row count. -/
theorem runApproved_summary_counts (axon oi : List Row) (res : ApprovedResult)
    (h : runApproved axon oi = .ok res) :
    res.summary.map Prod.fst =
      ["Invoices (AXON rows)", "Ready to Flip", "Pending", "Not Ready"] ∧
    summaryVal res "Ready to Flip" + summaryVal res "Pending" + summaryVal res "Not Ready" =
      summaryVal res "Invoices (AXON rows)" := by
  have hres := runApproved_ok_res axon oi res h
  subst hres
  refine ⟨rfl, ?_⟩
  have e1 : summaryVal ⟨approvedSummary axon oi, approvedOut axon oi⟩ "Ready to Flip" =
      ((approvedOut axon oi).filter (fun r => r.status = "Ready to Flip")).length := rfl
  have e2 : summaryVal ⟨approvedSummary axon oi, approvedOut axon oi⟩ "Pending" =
      ((approvedOut axon oi).filter (fun r => r.status = "Pending")).length := rfl
  have e3 : summaryVal ⟨approvedSummary axon oi, approvedOut axon oi⟩ "Not Ready" =
      ((approvedOut axon oi).filter (fun r => r.status = "Not Ready")).length := rfl
  have e4 : summaryVal ⟨approvedSummary axon oi, approvedOut axon oi⟩ "Invoices (AXON rows)" =
      (approvedOut axon oi).length := rfl
  rw [e1, e2, e3, e4]
  refine filter3_len _ _ _ (by decide) (by decide) (by decide) _ ?_
  intro x hx
  obtain ⟨r, _, hxe⟩ := List.mem_map.mp hx
  rw [← hxe]
  exact statusOfRow_mem _ r

/- ---------- C9: validation ---------- -/

/-- C9: `runApproved` validation inspects only the first rows. If some
required AXON column is missing from the first AXON row (or the AXON rows
are empty, in which case the first required column `Invoice#` is reported),
the run throws an error naming that column; failing that, a missing `Ticket`
column (or empty OpenInvoice rows) throws the `Ticket` error; and a
successful run — the only case that downloads a workbook — requires the
validation to have passed. -/
theorem runApproved_validation (axon oi : List Row) :
    (∀ c, firstMissingCol axon requiredAxon = some c →
      runApproved axon oi = .error ("AXON missing column: " ++ c) ∧ c ∈ requiredAxon) ∧
    (firstMissingCol axon requiredAxon = none →
      (oi.isEmpty || !(hasKey (oi.headD []) "Ticket")) = true →
      runApproved axon oi = .error "OpenInvoice missing column: Ticket") ∧
    (axon = [] → firstMissingCol axon requiredAxon = some "Invoice#") ∧
    (∀ res, runApproved axon oi = .ok res →
      firstMissingCol axon requiredAxon = none ∧ oi ≠ [] ∧
        hasKey (oi.headD []) "Ticket" = true) := by
  refine ⟨?_, ?_, ?_, ?_⟩
  · intro c hc
    refine ⟨?_, List.mem_of_find?_eq_some hc⟩
    unfold runApproved
    rw [hc]
  · intro h1 h2
    unfold runApproved
    rw [h1]
    split
    · rename_i c heq
      exact Option.noConfusion heq
    · split
      · rfl
      · rename_i hng
        exact absurd h2 hng
  · intro he
    subst he
    rfl
  · intro res h
    unfold runApproved at h
    split at h
    · exact Except.noConfusion h
    · rename_i hm
      split at h
      · exact Except.noConfusion h
      · rename_i hcond
        have hc2 : oi.isEmpty = false ∧ hasKey (oi.headD []) "Ticket" = true := by
          constructor
          · cases hoi : oi.isEmpty
            · rfl
            · exact absurd (by rw [hoi]; rfl) hcond
          · cases hk : hasKey (oi.headD []) "Ticket"
            · exact absurd (by rw [hk]; simp) hcond
            · rfl
        refine ⟨hm, ?_, hc2.2⟩
        intro he
        subst he
        exact absurd hc2.1 (by decide)

/- ---------- Concrete inputs shared by the witnesses ---------- -/

def wOiRow : Row := [("Ticket", .vStr "T1")]

def wAxonRow : Row :=
  [("Invoice#", .vStr "A1"), ("Tickets", .vStr "T1,T2"), ("Date", .vStr "d"),
   ("Name", .vStr "n"), ("Balance Due", .vNum 0)]

def wRes : ApprovedResult :=
  ⟨[("Invoices (AXON rows)", 1), ("Ready to Flip", 0), ("Pending", 1), ("Not Ready", 0)],
   [⟨.vStr "A1", .vStr "T1,T2", .vStr "d", .vStr "n", .vNum 0, "Pending"⟩]⟩

/-- C1 witness: the status theorem applied to one AXON row with tickets
`"T1,T2"` against open ticket `T1` (a `Pending` case). -/
theorem runApproved_status_spec_witness :
    wRes.invoiceStatus.map OutRow.status =
      [wAxonRow].map (fun r => specStatus (totalOf r) (matchedOf [wOiRow] r)) :=
  runApproved_status_spec [wAxonRow] [wOiRow] wRes (by rfl)

/-- C2 witness: the summary theorem applied to the same one-row input. -/
theorem runApproved_summary_counts_witness :
    wRes.summary.map Prod.fst =
      ["Invoices (AXON rows)", "Ready to Flip", "Pending", "Not Ready"] ∧
    summaryVal wRes "Ready to Flip" + summaryVal wRes "Pending" + summaryVal wRes "Not Ready" =
      summaryVal wRes "Invoices (AXON rows)" :=
  runApproved_summary_counts [wAxonRow] [wOiRow] wRes (by rfl)

/-- C9 witness: empty AXON rows report the first required column; a present
AXON row with empty OpenInvoice rows reports `Ticket`. -/
theorem runApproved_validation_witness :
    runApproved ([] : List Row) [wOiRow] = .error ("AXON missing column: " ++ "Invoice#") ∧
    runApproved [wAxonRow] ([] : List Row) = .error "OpenInvoice missing column: Ticket" :=
  ⟨((runApproved_validation [] [wOiRow]).1 "Invoice#" (by decide)).1,
   (runApproved_validation [wAxonRow] []).2.1 (by decide) (by decide)⟩

/- ---------- C10: duplicate tokens count with multiplicity ---------- -/

def dupAxonRow : Row :=
  [("Invoice#", .vStr "A2"), ("Tickets", .vStr "T1,T1"), ("Date", .vStr "d"),
   ("Name", .vStr "n"), ("Balance Due", .vNum 0)]

/-- C10: duplicate ticket tokens in one `Tickets` cell are counted with
multiplicity in both `total` and `matched`: the row `Tickets = "T1,T1"` with
`T1` open has `total = 2`, `matched = 2` and status `Ready to Flip`. -/
theorem runApproved_duplicate_tokens :
    normTokens dupAxonRow = ["T1", "T1"] ∧
    totalOf dupAxonRow = 2 ∧ matchedOf [wOiRow] dupAxonRow = 2 ∧
    (runApproved [dupAxonRow] [wOiRow]).map (fun r => r.invoiceStatus.map OutRow.status) =
      .ok ["Ready to Flip"] := by
  refine ⟨rfl, rfl, rfl, rfl⟩

/- ---------- The Remittance reconciler: extraction and loop lemmas ---------- -/

lemma runRemit_ok_res (axon rem : List Row) (res : RemitResult)
    (h : runRemit axon rem = .ok res) :
    res = ⟨remitOutRows axon rem, remitNotFound axon rem⟩ := by
  unfold runRemit at h
  split at h
  · exact Except.noConfusion h
  · dsimp only at h
    split at h
    · exact Except.noConfusion h
    · split at h
      · exact Except.noConfusion h
      · cases h
        rfl

lemma remitDataRow_pioneer (invMap : List (String × String)) (r : Row) :
    (remitDataRow invMap r).pioneer =
      if (remitDataRow invMap r).customer = PIONEER then (remitDataRow invMap r).netAmount
      else none := rfl

lemma remitDataRow_xto (invMap : List (String × String)) (r : Row) :
    (remitDataRow invMap r).xto =
      if (remitDataRow invMap r).customer = XTO then (remitDataRow invMap r).netAmount
      else none := rfl

lemma bucket_add (row : RemitRow) (acc : Rat) (c : String) :
    (if row.customer = c then acc + row.netAmount.getD 0 else acc) =
      acc + (if row.customer = c then row.netAmount else none).getD 0 := by
  by_cases h : row.customer = c <;> simp [h]

lemma remitLoop_foldl (invMap : List (String × String)) (rows : List Row) :
    ∀ acc : List RemitRow × Rat × Rat,
      rows.foldl (remitStep invMap) acc =
        (acc.1 ++ rows.map (remitDataRow invMap),
         acc.2.1 + ((rows.map (fun r => (remitDataRow invMap r).pioneer.getD 0)).sum),
         acc.2.2 + ((rows.map (fun r => (remitDataRow invMap r).xto.getD 0)).sum)) := by
  induction rows with
  | nil =>
    intro acc
    simp
  | cons r rows ih =>
    intro acc
    rw [List.foldl_cons, ih]
    unfold remitStep
    refine Prod.ext ?_ (Prod.ext ?_ ?_)
    · simp
    · show (if (remitDataRow invMap r).customer = PIONEER
          then acc.2.1 + (remitDataRow invMap r).netAmount.getD 0 else acc.2.1) + _ = _
      rw [bucket_add, ← remitDataRow_pioneer]
      simp [add_assoc]
    · show (if (remitDataRow invMap r).customer = XTO
          then acc.2.2 + (remitDataRow invMap r).netAmount.getD 0 else acc.2.2) + _ = _
      rw [bucket_add, ← remitDataRow_xto]
      simp [add_assoc]

lemma remitLoop_eq (invMap : List (String × String)) (rows : List Row) :
    remitLoop invMap rows =
      (rows.map (remitDataRow invMap),
       (rows.map (fun r => (remitDataRow invMap r).pioneer.getD 0)).sum,
       (rows.map (fun r => (remitDataRow invMap r).xto.getD 0)).sum) := by
  unfold remitLoop
  rw [remitLoop_foldl]
  simp

lemma remitOutRows_eq (axon rem : List Row) :
    remitOutRows axon rem =
      rem.map (remitDataRow (buildInvMap axon)) ++
        [⟨"", none, "TOTAL",
          some ((rem.map (fun r => (remitDataRow (buildInvMap axon) r).pioneer.getD 0)).sum),
          some ((rem.map (fun r => (remitDataRow (buildInvMap axon) r).xto.getD 0)).sum)⟩] := by
  unfold remitOutRows
  rw [remitLoop_eq]

lemma find?_filter_ne_none (L : List (String × String)) :
    (List.find? (fun p => p.1 = "") (L.filter (fun p => p.1 ≠ ""))).map Prod.snd = none := by
  have h : List.find? (fun p : String × String => p.1 = "") (L.filter (fun p => p.1 ≠ "")) =
      none := by
    rw [List.find?_eq_none]
    intro x hx
    have h2 := (List.mem_filter.mp hx).2
    simp only [decide_eq_true_eq] at h2 ⊢
    exact h2
  rw [h]
  rfl

lemma findPair_aux (k : String) (hk : k ≠ "") (l : List Row) :
    ((((l.map (fun r => (normalizeInvoice (getCell r "Invoice#"),
        jsTrim (jsString (getCell r "Name"))))).filter
          (fun p => p.1 ≠ "")).find? (fun p => p.1 = k)).map Prod.snd) =
      (l.find? (fun r => normalizeInvoice (getCell r "Invoice#") = k)).map
        (fun r => jsTrim (jsString (getCell r "Name"))) := by
  induction l with
  | nil => rfl
  | cons r l ih =>
    rw [List.map_cons, List.filter_cons]
    by_cases h1 : normalizeInvoice (getCell r "Invoice#") = ""
    · rw [if_neg (by simp [h1]), List.find?_cons_of_neg _ (by simp [h1, Ne.symm hk])]
      exact ih
    · rw [if_pos (by simp [h1])]
      by_cases h2 : normalizeInvoice (getCell r "Invoice#") = k
      · rw [List.find?_cons_of_pos _ (by simp [h2]), List.find?_cons_of_pos _ (by simp [h2])]
        rfl
      · rw [List.find?_cons_of_neg _ (by simp [h2]), List.find?_cons_of_neg _ (by simp [h2])]
        exact ih

lemma jsMapGet_build (axon : List Row) (k : String) :
    jsMapGet (buildInvMap axon) k = lastCustomerFor axon k := by
  unfold jsMapGet buildInvMap lastCustomerFor
  rw [← List.filter_reverse, ← List.map_reverse]
  by_cases hk : k = ""
  · subst hk
    rw [if_pos rfl]
    exact find?_filter_ne_none _
  · rw [if_neg hk]
    exact findPair_aux k hk axon.reverse

lemma remitDataRow_customer (axon : List Row) (r : Row) :
    (remitDataRow (buildInvMap axon) r).customer = customerSpec axon r := by
  have hx : (remitDataRow (buildInvMap axon) r).customer =
      (match jsMapGet (buildInvMap axon) (refNorm r) with
       | some n => if n = "" then "NOT FOUND IN AXON" else n
       | none => "NOT FOUND IN AXON") := rfl
  rw [hx, jsMapGet_build]
  rfl

/- ---------- C3: customer lookup ---------- -/

def cexAxonRow : Row := [("Invoice#", .vStr "100"), ("Name", .vStr "")]

def cexRemRow : Row := [("Reference", .vStr "100"), ("Net Amount", .vStr "5")]

/-- C3 counterexample: with an AXON row whose `Name` is empty, the reference
`"100"` IS in the Invoice-to-Customer Map (mapped to `""`), yet the output
Customer is `NOT FOUND IN AXON`: `get(inv) || "NOT FOUND IN AXON"` also
falls back on a present-but-empty name, so `NOT FOUND IN AXON` does not
appear only when the reference is absent. -/
theorem runRemit_customer_cex :
    jsMapGet (buildInvMap [cexAxonRow]) "100" = some "" ∧
    (runRemit [cexAxonRow] [cexRemRow]).map (fun res => res.breakdown.map RemitRow.customer) =
      .ok ["NOT FOUND IN AXON", "TOTAL"] := by
  refine ⟨rfl, rfl⟩

/-- C3 amended: the Invoice-to-Customer Map does map each nonempty
normalized `Invoice#` to the trimmed `Name` of the last AXON row with that
id (empty ids skipped, later rows overwriting earlier ones), and each output
row's Customer is the mapped name when the normalized reference is present
with a nonempty name, and `NOT FOUND IN AXON` when it is absent or maps to
an empty name. -/
theorem runRemit_customer_rule (axon rem : List Row) (res : RemitResult) (k : String)
    (h : runRemit axon rem = .ok res) :
    jsMapGet (buildInvMap axon) k = lastCustomerFor axon k ∧
    res.breakdown.dropLast.map RemitRow.customer = rem.map (customerSpec axon) := by
  refine ⟨jsMapGet_build axon k, ?_⟩
  have hres := runRemit_ok_res axon rem res h
  subst hres
  dsimp only
  rw [remitOutRows_eq, List.dropLast_concat, List.map_map]
  exact List.map_congr_left (fun r _ => remitDataRow_customer axon r)

/- ---------- C4: the TOTAL row ---------- -/

/-- The `getLastD` default; never selected since the breakdown sheet always
ends with the appended `TOTAL` row. -/
def blankRemitRow : RemitRow := ⟨"", none, "", none, none⟩

/-- C4: the final appended row has Customer `TOTAL`, empty Reference and
Net Amount, and its `PioneerNaturalResources` and `XTO` cells each hold the
sum, over all non-total output rows, of that row's bucket column with the
empty cell read as `0`. -/
theorem runRemit_total_row (axon rem : List Row) (res : RemitResult)
    (h : runRemit axon rem = .ok res) :
    res.breakdown ≠ [] ∧
    (res.breakdown.getLastD blankRemitRow).customer = "TOTAL" ∧
    (res.breakdown.getLastD blankRemitRow).reference = "" ∧
    (res.breakdown.getLastD blankRemitRow).netAmount = none ∧
    (res.breakdown.getLastD blankRemitRow).pioneer =
      some ((res.breakdown.dropLast.map (fun x => x.pioneer.getD 0)).sum) ∧
    (res.breakdown.getLastD blankRemitRow).xto =
      some ((res.breakdown.dropLast.map (fun x => x.xto.getD 0)).sum) := by
  have hres := runRemit_ok_res axon rem res h
  subst hres
  dsimp only
  rw [remitOutRows_eq, List.getLastD_concat, List.dropLast_concat]
  refine ⟨by simp, rfl, rfl, rfl, ?_, ?_⟩
  · rw [List.map_map]
    rfl
  · rw [List.map_map]
    rfl

/- ---------- C8: amount parsing ---------- -/

/-- C8: every data row's output `Net Amount` is the cell stringified,
stripped of commas and converted by `Number`, with a non-numeric result
replaced by `0`; the parse is a total function, so it never throws. -/
theorem runRemit_amounts (axon rem : List Row) (res : RemitResult)
    (h : runRemit axon rem = .ok res) :
    res.breakdown.dropLast.map RemitRow.netAmount =
      rem.map (fun r => some (parseNetAmount (getCell r "Net Amount"))) := by
  have hres := runRemit_ok_res axon rem res h
  subst hres
  dsimp only
  rw [remitOutRows_eq, List.dropLast_concat, List.map_map]
  rfl

/- ---------- Remittance witnesses ---------- -/

def rAxonRow : Row := [("Invoice#", .vStr "100.0"), ("Name", .vStr "Pioneer Natural Resources")]

def rRemRow : Row := [("Reference", .vStr "100"), ("Net Amount", .vStr "1,000")]

def rRes : RemitResult :=
  ⟨[⟨"100", some 1000, "Pioneer Natural Resources", some 1000, none⟩,
    ⟨"", none, "TOTAL", some 1000, some 0⟩], []⟩

/-- C3 witness: the amended customer rule on a one-row remittance matching a
`"100.0"` AXON invoice. -/
theorem runRemit_customer_rule_witness :
    jsMapGet (buildInvMap [rAxonRow]) "100" = lastCustomerFor [rAxonRow] "100" ∧
    rRes.breakdown.dropLast.map RemitRow.customer = [rRemRow].map (customerSpec [rAxonRow]) :=
  runRemit_customer_rule [rAxonRow] [rRemRow] rRes "100" (by with_unfolding_all rfl)

/-- C4 witness: the TOTAL-row theorem on the same concrete run. -/
theorem runRemit_total_row_witness :
    rRes.breakdown ≠ [] ∧
    (rRes.breakdown.getLastD blankRemitRow).customer = "TOTAL" ∧
    (rRes.breakdown.getLastD blankRemitRow).reference = "" ∧
    (rRes.breakdown.getLastD blankRemitRow).netAmount = none ∧
    (rRes.breakdown.getLastD blankRemitRow).pioneer =
      some ((rRes.breakdown.dropLast.map (fun x => x.pioneer.getD 0)).sum) ∧
    (rRes.breakdown.getLastD blankRemitRow).xto =
      some ((rRes.breakdown.dropLast.map (fun x => x.xto.getD 0)).sum) :=
  runRemit_total_row [rAxonRow] [rRemRow] rRes (by with_unfolding_all rfl)

/-- C8 witness: the amount-parse theorem on the same concrete run, where
`"1,000"` parses to `1000`. -/
theorem runRemit_amounts_witness :
    rRes.breakdown.dropLast.map RemitRow.netAmount =
      [rRemRow].map (fun r => some (parseNetAmount (getCell r "Net Amount"))) :=
  runRemit_amounts [rAxonRow] [rRemRow] rRes (by with_unfolding_all rfl)

end LstOps
